import Mathlib

/-!
Verification of the DynamoRIO core specification against its source.

Part 1 embeds routines of `core/win32/os.c` (page-protection translation,
safe reads, child-process injection policy, the detach guard).
Part 2 models the drwrap wrap/replace layer: its implementation file is not
part of the sources at hand (only the interface `drwrap.h` and the test
client `drwrap-test.dll.c` are), so those definitions are modelled from the
specification, as their doc comments state.
-/

namespace DynamoRIO

/-! ## Windows page-protection constants (values listed in core/win32/os.c) -/

def PAGE_NOACCESS : Nat := 1
def PAGE_READONLY : Nat := 2
def PAGE_READWRITE : Nat := 4
def PAGE_WRITECOPY : Nat := 8
def PAGE_EXECUTE : Nat := 16
def PAGE_EXECUTE_READ : Nat := 32
def PAGE_EXECUTE_READWRITE : Nat := 64
def PAGE_EXECUTE_WRITECOPY : Nat := 128
def PAGE_GUARD : Nat := 256
def PAGE_NOCACHE : Nat := 512

/-- `PAGE_GUARD | PAGE_NOCACHE`: the non-RWX qualifier bits that
`prot_is_readable` and friends strip before comparing. -/
def PAGE_PROTECTION_QUALIFIERS : Nat := PAGE_GUARD ||| PAGE_NOCACHE

/-- 32-bit complement mask of the qualifier bits: `prot &= ~PAGE_PROTECTION_QUALIFIERS`
on a 32-bit `uint`. -/
def NOT_QUALIFIERS_MASK : Nat := 2 ^ 32 - 1 - PAGE_PROTECTION_QUALIFIERS

/-- Platform-independent protection bits.  Their numeric values are the
conventional DynamoRIO ones (the defining header is not among the sources);
the theorems below depend only on them being three distinct bits. -/
def MEMPROT_READ : Nat := 1
def MEMPROT_WRITE : Nat := 2
def MEMPROT_EXEC : Nat := 4

/-- `TEST(x, val)`: whether all bits of `x` are set in `val` (for the
single-bit masks used here, whether the bit is set). -/
def TEST (x val : Nat) : Bool := val &&& x ≠ 0

/-- `prot_is_readable` from core/win32/os.c: strip qualifiers, then compare
against each readable page protection. -/
def prot_is_readable (prot : Nat) : Bool :=
  let p := prot &&& NOT_QUALIFIERS_MASK
  p = PAGE_READONLY || p = PAGE_READWRITE || p = PAGE_WRITECOPY ||
  p = PAGE_EXECUTE || p = PAGE_EXECUTE_READ || p = PAGE_EXECUTE_READWRITE ||
  p = PAGE_EXECUTE_WRITECOPY

/-- `prot_is_writable` from core/win32/os.c. -/
def prot_is_writable (prot : Nat) : Bool :=
  let p := prot &&& NOT_QUALIFIERS_MASK
  p = PAGE_READWRITE || p = PAGE_WRITECOPY ||
  p = PAGE_EXECUTE_READWRITE || p = PAGE_EXECUTE_WRITECOPY

/-- `prot_is_executable` from core/win32/os.c. -/
def prot_is_executable (prot : Nat) : Bool :=
  let p := prot &&& NOT_QUALIFIERS_MASK
  p = PAGE_EXECUTE || p = PAGE_EXECUTE_READ ||
  p = PAGE_EXECUTE_READWRITE || p = PAGE_EXECUTE_WRITECOPY

/-- `memprot_to_osprot` from core/win32/os.c: translate platform-independent
protection bits to native flags.  (The debug `ASSERT(TEST(MEMPROT_READ, prot))`
does not change the returned value.) -/
def memprot_to_osprot (prot : Nat) : Nat :=
  if TEST MEMPROT_EXEC prot then
    if TEST MEMPROT_WRITE prot then PAGE_EXECUTE_READWRITE
    else PAGE_EXECUTE_READ
  else if TEST MEMPROT_READ prot then
    if TEST MEMPROT_WRITE prot then PAGE_READWRITE
    else PAGE_READONLY
  else PAGE_NOACCESS

/-- `osprot_to_memprot` from core/win32/os.c: translate native flags to
platform-independent protection bits. -/
def osprot_to_memprot (prot : Nat) : Nat :=
  (if prot_is_readable prot then MEMPROT_READ else 0) |||
  (if prot_is_writable prot then MEMPROT_WRITE else 0) |||
  (if prot_is_executable prot then MEMPROT_EXEC else 0)

/-! ## safe_read / safe_read_ex (core/win32/os.c) -/

/-- Result of the underlying OS read: success flag and the byte count the
kernel reports back through the output parameter. -/
structure NtReadResult where
  ok : Bool
  bytesRead : Nat
deriving Repr, DecidableEq

/-- Model of `nt_read_virtual_memory` (OS facade, out of core): it copies the
contiguous readable run starting at `base` (capped at `size`) and succeeds
exactly when the whole range was readable.  It reports failure on unreadable
memory rather than faulting: the function is total. -/
def nt_read_virtual_memory (mem : Nat → Bool) (base size : Nat) : NtReadResult :=
  let run := ((List.range size).takeWhile (fun i => mem (base + i))).length
  { ok := decide (run = size), bytesRead := run }

/-- `safe_read_ex` from core/win32/os.c: zero the reported count, then return
the OS read's verdict together with the count it filled in. -/
def safe_read_ex (mem : Nat → Bool) (base size : Nat) : Bool × Nat :=
  let bytes_read := 0
  let res := nt_read_virtual_memory mem base size
  (res.ok, if res.ok || res.bytesRead ≠ 0 then res.bytesRead else bytes_read)

/-- `safe_read` from core/win32/os.c:
`safe_read_ex(base, size, out_buf, &bytes_read) && bytes_read == size`. -/
def safe_read (mem : Nat → Bool) (base size : Nat) : Bool :=
  let r := safe_read_ex mem base size
  r.1 && decide (r.2 = size)

/-! ## should_inject_into_process (core/win32/os.c) -/

/-- The follow-children family of dynamic options consulted by
`should_inject_into_process`. -/
structure FollowOptions where
  follow_children : Bool
  follow_explicit_children : Bool
  follow_systemwide : Bool
deriving Repr, DecidableEq

/-- The`inject_setting_mask_t` bits returned by `systemwide_should_inject`
that `should_inject_into_process` tests. -/
structure InjectMask where
  inject_true : Bool
  inject_explicit : Bool
  inject_excluded : Bool
deriving Repr, DecidableEq

/-- `should_inject_into_process` from core/win32/os.c, with the option reads,
the `systemwide_should_inject` mask and `systemwide_inject_enabled()` as
inputs.  The sequence of conditional assignments to `inject` is transcribed
directly. -/
def should_inject_into_process (opts : FollowOptions) (si : InjectMask)
    (systemwide_inject_enabled : Bool) : Bool :=
  if opts.follow_children || opts.follow_explicit_children || opts.follow_systemwide then
    let inject := false
    let inject :=
      if opts.follow_systemwide && si.inject_true then true else inject
    let inject :=
      if !inject && opts.follow_explicit_children &&
         (si.inject_explicit && si.inject_true) then true else inject
    let inject :=
      if !inject && opts.follow_children then
        let i := true
        let i := if si.inject_excluded then false else i
        let i := if si.inject_true && systemwide_inject_enabled &&
                    !si.inject_explicit then false else i
        i
      else inject
    inject
  else false

/-! ## detach_helper entry guard (core/win32/os.c) -/

/-- The engine state that the entry of `detach_helper` reads and writes.
`detached` abstracts the remainder of the routine: it is set exactly when
control passes the guards and the actual detach teardown runs. -/
structure DetachState where
  dynamo_initialized : Bool
  dynamo_exited : Bool
  has_dcontext : Bool
  dynamo_detaching_flag : Bool
  doing_detach : Bool
  internal_detach : Bool
  allow_detach : Bool
  datasec_protected : Bool
  error_reported : Bool
  detached : Bool
deriving Repr, DecidableEq

/-- `detach_helper` from core/win32/os.c, its entry path: the
initialized/exited/dcontext guard, the `dynamo_detaching_flag` compare-and-swap,
the data-section unprotect, and the `allow_detach` check that reports
`"Detach called without the allow_detach option set"` and backs out.  The
teardown past the guards is abstracted as setting `detached`. -/
def detach_helper (st : DetachState) : DetachState :=
  if !st.dynamo_initialized || st.dynamo_exited || !st.has_dcontext then st
  else if st.dynamo_detaching_flag then st
  else
    let st1 := { st with dynamo_detaching_flag := true,
                         datasec_protected := false,
                         doing_detach := true }
    if !st1.internal_detach && !st1.allow_detach then
      { st1 with doing_detach := false,
                 datasec_protected := true,
                 dynamo_detaching_flag := false,
                 error_reported := true }
    else
      { st1 with detached := true }

/-! ## The wrap layer (drwrap)

The implementation file of the wrap/replace extension is not among the
sources at hand; only its interface (drwrap.h) and its test client
(drwrap-test.dll.c) are.  The definitions below are therefore modelled from
the specification (§3 Wrap Record, §4.11, S3, S4), as stated per definition. -/

/-- Modelled from the spec: a wrap record registered by `drwrap_wrap`
(drwrap.c is absent): an identifier in registration order and which of the
two callbacks are present (one may be NULL, not both). -/
structure WrapEntry where
  wid : Nat
  hasPre : Bool
  hasPost : Bool
deriving Repr, DecidableEq

/-- An observable callback invocation: which function's wrap, which
registration, and for a post callback whether it carries the abnormal
indication (NULL wrapcxt). -/
inductive WrapEvent where
  | pre (f wid : Nat)
  | post (f wid : Nat) (abnormal : Bool)
deriving Repr, DecidableEq

def WrapEvent.isPost : WrapEvent → Bool
  | .post _ _ _ => true
  | .pre _ _ => false

def WrapEvent.isAbnormalPost : WrapEvent → Bool
  | .post _ _ ab => ab
  | .pre _ _ => false

/-- Modelled from the spec (§4.11): registration order defines the pre-call
order, so the pre events of one invocation list the entries with a pre
callback in registration order. -/
def preEvents (f : Nat) : List WrapEntry → List WrapEvent
  | [] => []
  | e :: rest =>
    (if e.hasPre then [WrapEvent.pre f e.wid] else []) ++ preEvents f rest

/-- Post events of one invocation taken in the order of the given list
(helper; the list is reversed by `postEvents` below). -/
def postEventsFwd (f : Nat) (ab : Bool) : List WrapEntry → List WrapEvent
  | [] => []
  | e :: rest =>
    (if e.hasPost then [WrapEvent.post f e.wid ab] else []) ++ postEventsFwd f ab rest

/-- Modelled from the spec (§4.11): the reverse of registration order defines
the post-call order. -/
def postEvents (f : Nat) (regs : List WrapEntry) (ab : Bool) : List WrapEvent :=
  postEventsFwd f ab regs.reverse

/-- Modelled from the spec (§4.11): a frame of the per-thread wrap-stack,
pushed on entry to a wrapped function: the function, the stack-pointer
watermark at entry, and the wrap records whose post callbacks are owed. -/
structure WrapFrame where
  func : Nat
  watermark : Nat
  entries : List WrapEntry
deriving Repr, DecidableEq

/-- Per-thread wrap state: the wrap-stack (head = innermost frame), the
application stack pointer (downward-growing), and the event trace so far. -/
structure WrapState where
  stack : List WrapFrame
  sp : Nat
  trace : List WrapEvent
deriving Repr, DecidableEq

/-- Application-level actions the wrap layer observes: entry to a wrapped
function, its normal return, and a nonlocal exit (longjmp / exception)
restoring the stack pointer to `target`. -/
inductive WrapAct where
  | call (f : Nat)
  | ret
  | longjmpTo (target : Nat)
deriving Repr, DecidableEq

/-- Modelled from the spec (§4.11): at a cache exit after a nonlocal transfer,
frames whose watermark lies below the restored stack pointer have been
unwound; their post callbacks are invoked with the abnormal context,
innermost first, before the frames are popped. -/
def unwindFrames (t : Nat) : List WrapFrame → List WrapFrame × List WrapEvent
  | [] => ([], [])
  | fr :: rest =>
    if fr.watermark < t then
      let r := unwindFrames t rest
      (r.1, postEvents fr.func fr.entries true ++ r.2)
    else (fr :: rest, [])

/-- Modelled from the spec (§4.11): one step of the wrap layer.  A call runs
the pre callbacks in registration order and pushes a frame with the entry
watermark; a normal return pops the top frame and runs its post callbacks in
reverse registration order; a nonlocal exit unwinds bypassed frames with
abnormal post callbacks. -/
def wrapStep (wraps : Nat → List WrapEntry) (s : WrapState) : WrapAct → WrapState
  | .call f =>
    let sp' := s.sp - 1
    { stack := ⟨f, sp', wraps f⟩ :: s.stack,
      sp := sp',
      trace := s.trace ++ preEvents f (wraps f) }
  | .ret =>
    match s.stack with
    | [] => s
    | fr :: rest =>
      { stack := rest, sp := fr.watermark + 1,
        trace := s.trace ++ postEvents fr.func fr.entries false }
  | .longjmpTo t =>
    let r := unwindFrames t s.stack
    { stack := r.1, sp := t, trace := s.trace ++ r.2 }

/-- Run the wrap layer from an empty wrap-stack at initial stack pointer
`sp0` over a sequence of actions. -/
def wrapRun (wraps : Nat → List WrapEntry) (sp0 : Nat) (acts : List WrapAct) : WrapState :=
  acts.foldl (wrapStep wraps) ⟨[], sp0, []⟩

/-- Event selector: a pre event of wrap `wid` on function `f`. -/
def isPreOf (f wid : Nat) : WrapEvent → Bool
  | .pre f' w => decide (f' = f ∧ w = wid)
  | .post _ _ _ => false

/-- Event selector: a post event (normal or abnormal) of wrap `wid` on
function `f`. -/
def isPostOf (f wid : Nat) : WrapEvent → Bool
  | .post f' w _ => decide (f' = f ∧ w = wid)
  | .pre _ _ => false

def preCount (f wid : Nat) (tr : List WrapEvent) : Nat := tr.countP (isPreOf f wid)

def postCount (f wid : Nat) (tr : List WrapEvent) : Nat := tr.countP (isPostOf f wid)

/-- Post callbacks of wrap `wid` on `f` still owed by one wrap-stack frame. -/
def framePending (f wid : Nat) (fr : WrapFrame) : Nat :=
  if fr.func = f then fr.entries.countP (fun e => e.hasPost && decide (e.wid = wid)) else 0

/-- Post callbacks of wrap `wid` on `f` still owed by the whole wrap-stack. -/
def stackPending (f wid : Nat) (stk : List WrapFrame) : Nat :=
  (stk.map (framePending f wid)).sum

/-- The per-thread TLS counter of the unwind test
(drwrap-test.dll.c, `wrap_unwindtest_pre` / `wrap_unwindtest_post`): each pre
callback of a function other than longdone increments it, each post callback
of a function other than longdone decrements it; longdone's post callback
checks it is 0. -/
def unwindCounter (longdone : Nat) (tr : List WrapEvent) : Int :=
  tr.foldl (fun c e =>
    match e with
    | .pre f _ => if f = longdone then c else c + 1
    | .post f _ _ => if f = longdone then c else c - 1) 0

/-- Wrap table of the unwind test (drwrap-test.dll.c `module_load_event`):
long0..long3 are functions 0..3, longdone is function 4, each wrapped once
with both callbacks. -/
def unwindWraps : Nat → List WrapEntry := fun f =>
  if f ≤ 4 then [⟨10 + f, true, true⟩] else []

/-- Scenario S4: long0 calls long1 calls long2 calls long3, long3 performs a
nonlocal jump back past long0's frame, then longdone is called and returns
normally. -/
def unwindActs : List WrapAct :=
  [.call 0, .call 1, .call 2, .call 3, .longjmpTo 100, .call 4, .ret]

/-- Modelled from the spec (§4.11 Skip-call, S3; drwrap.c is absent): the pre
callbacks of one invocation processed in pre-call order.  `skips wid` tells
whether that wrap's pre callback invokes `drwrap_skip_call` and with which
return value; the first such callback stops the remaining pre callbacks.
Returns the pre events emitted and the skip verdict. -/
def runPres (f : Nat) (skips : Nat → Option Nat) : List WrapEntry → List WrapEvent × Option Nat
  | [] => ([], none)
  | e :: rest =>
    if e.hasPre then
      match skips e.wid with
      | some v => ([WrapEvent.pre f e.wid], some v)
      | none =>
        let r := runPres f skips rest
        (WrapEvent.pre f e.wid :: r.1, r.2)
    else runPres f skips rest

/-- Outcome of one invocation of a wrapped function: callback events, the
return value the application caller observes, and whether the wrapped
function's body was executed. -/
structure InvokeResult where
  events : List WrapEvent
  retval : Nat
  bodyRan : Bool
deriving Repr, DecidableEq

/-- Modelled from the spec (S3, §4.11): one invocation of wrapped function
`f` whose body would return `body`.  If some pre callback skips with value
`v`, the body is not executed, the caller observes `v`, and no post callback
runs; otherwise the body runs and the post callbacks fire in reverse
registration order with the body's return value delivered. -/
def invokeWrapped (f : Nat) (regs : List WrapEntry) (skips : Nat → Option Nat)
    (body : Nat) : InvokeResult :=
  let r := runPres f skips regs
  match r.2 with
  | some v => ⟨r.1, v, false⟩
  | none => ⟨r.1 ++ postEvents f regs false, body, true⟩

/-! ## The replace layer (drwrap_replace) — modelled from the spec -/

/-- Modelled from the spec (§4.11 Replace, drwrap.h doc; drwrap.c is absent):
the replacement table maps a function address to its installed replacement,
if any.  `drwrap_replace` installs, overrides, or (given NULL and override)
removes a replacement; installing over an existing one fails without
override. -/
def drwrap_replace (tbl : Nat → Option Nat) (original : Nat)
    (replacement : Option Nat) (override : Bool) : Bool × (Nat → Option Nat) :=
  match replacement with
  | none =>
    if override && (tbl original).isSome then
      (true, fun a => if a = original then none else tbl a)
    else (false, tbl)
  | some r =>
    if (tbl original).isSome && !override then (false, tbl)
    else (true, fun a => if a = original then some r else tbl a)

/-- The address whose code actually executes when the application transfers
to `f`: the installed replacement if any, else `f` itself (native
execution). -/
def replaceTarget (tbl : Nat → Option Nat) (f : Nat) : Nat := (tbl f).getD f

/-! ## Fault transparency for unreadable transfer targets — modelled from the spec -/

/-- A fault record as delivered to a handler: the kind (access violation),
the faulting address, and the machine context (abstracted as an
identifier). -/
structure FaultRecord where
  accessViolation : Bool
  faultAddr : Nat
  context : Nat
deriving Repr, DecidableEq

/-- Outcome of a control transfer: execution proceeds at the target, or a
registered handler is invoked with a fault record. -/
inductive TransferOutcome where
  | executes (pc : Nat)
  | handlerInvoked (handler : Nat) (flt : FaultRecord)
deriving Repr, DecidableEq

/-- Reference semantics: the native CPU transfers control to `target`; if the
bytes there are unreadable it raises an access violation at that address,
delivered to the application's registered handler with the context at the
fault. -/
def nativeTransfer (mem : Nat → Option Nat) (handler target ctx : Nat) : TransferOutcome :=
  match mem target with
  | some _ => .executes target
  | none => .handlerInvoked handler ⟨true, target, ctx⟩

/-- Modelled from the spec (§4.1 step 1; the fragment builder is absent from
the sources at hand): decoding application bytes at a not-yet-cached transfer
target; fails exactly when the target byte is unreadable. -/
def decodeAt (mem : Nat → Option Nat) (target : Nat) : Option Nat := mem target

/-- Modelled from the spec (§4.10 case (a); the async interposer is absent
from the sources at hand): a fault whose PC lies in not-yet-cached
application code is propagated to the application's handler with the original
context. -/
def interposerPropagateToApp (handler : Nat) (flt : FaultRecord) : TransferOutcome :=
  .handlerInvoked handler flt

/-- Modelled from the spec (§4.1 errors, §7): the engine's handling of a
transfer to a not-yet-cached target: decode the application bytes; on decode
failure, a synthetic fragment re-raises the very fault the CPU would have
raised (access violation at the target), which the async interposer
propagates to the application's handler with the original context; otherwise
the built fragment executes the target's code. -/
def engineTransfer (mem : Nat → Option Nat) (handler target ctx : Nat) : TransferOutcome :=
  match decodeAt mem target with
  | some _ => .executes target
  | none => interposerPropagateToApp handler ⟨true, target, ctx⟩

/-! # Theorems for the os.c claims -/

/-- C10: for every platform-independent protection value composed of the
MEMPROT_READ/WRITE/EXEC bits in which WRITE or EXEC implies READ, translating
to a native Windows page protection and back is the identity. -/
theorem memprot_osprot_roundtrip (p : Nat) (hp : p < 8)
    (hw : TEST MEMPROT_WRITE p = true → TEST MEMPROT_READ p = true)
    (hx : TEST MEMPROT_EXEC p = true → TEST MEMPROT_READ p = true) :
    osprot_to_memprot (memprot_to_osprot p) = p := by
  interval_cases p <;> revert hw hx <;> decide

/-- Witness for C10 at the concrete value `MEMPROT_READ|MEMPROT_EXEC = 5`. -/
theorem memprot_osprot_roundtrip_witness :
    osprot_to_memprot (memprot_to_osprot 5) = 5 :=
  memprot_osprot_roundtrip 5 (by decide) (by decide) (by decide)

/-- C9: `safe_read` returns true exactly when the underlying OS read reports
success with exactly `size` bytes read; a partial read yields false, and a
range containing an unreadable byte yields false (the modelled OS read is
total, so no fault is raised). -/
theorem safe_read_iff_full_read (mem : Nat → Bool) (base size : Nat) :
    (safe_read mem base size = true ↔
      ((nt_read_virtual_memory mem base size).ok = true ∧
       (nt_read_virtual_memory mem base size).bytesRead = size))
    ∧ ((nt_read_virtual_memory mem base size).bytesRead < size →
        safe_read mem base size = false)
    ∧ (∀ i, i < size → mem (base + i) = false →
        safe_read mem base size = false) := by
  refine ⟨?_, ?_, ?_⟩
  · simp only [safe_read, safe_read_ex, Bool.and_eq_true, decide_eq_true_eq]
    constructor
    · rintro ⟨hok, hbytes⟩
      refine ⟨hok, ?_⟩
      simpa [hok] using hbytes
    · rintro ⟨hok, hbytes⟩
      exact ⟨hok, by simp [hok, hbytes]⟩
  · intro hlt
    simp only [safe_read, safe_read_ex]
    have hok : (nt_read_virtual_memory mem base size).ok = false := by
      simp only [nt_read_virtual_memory]
      simpa using Nat.ne_of_lt hlt
    simp [hok]
  · intro i hi hmem
    have hrun : ((List.range size).takeWhile (fun j => mem (base + j))).length ≠ size := by
      intro hlen
      have hall : (List.range size).takeWhile (fun j => mem (base + j)) =
          List.range size := by
        apply List.IsPrefix.eq_of_length (List.takeWhile_prefix _)
        simpa using hlen
      have : mem (base + i) = true := by
        have hi' : i ∈ (List.range size).takeWhile (fun j => mem (base + j)) := by
          rw [hall]; exact List.mem_range.mpr hi
        simpa using List.mem_takeWhile_imp hi'
      simp [this] at hmem
    have hok : (nt_read_virtual_memory mem base size).ok = false := by
      simp only [nt_read_virtual_memory]
      simpa using hrun
    simp [safe_read, safe_read_ex, hok]

/-- Witness for C9 at a concrete memory with an unreadable byte: reading 4
bytes at base 10 where address 12 is unreadable gives a partial read and
`safe_read` returns false, while reading 2 readable bytes succeeds. -/
theorem safe_read_iff_full_read_witness :
    ((nt_read_virtual_memory (fun a => decide (a ≠ 12)) 10 4).bytesRead < 4 ∧
     safe_read (fun a => decide (a ≠ 12)) 10 4 = false) ∧
    safe_read (fun a => decide (a ≠ 12)) 10 2 = true := by
  refine ⟨⟨by decide, ?_⟩, ?_⟩
  · exact (safe_read_iff_full_read (fun a => decide (a ≠ 12)) 10 4).2.1 (by decide)
  · exact ((safe_read_iff_full_read (fun a => decide (a ≠ 12)) 10 2).1).mpr
      (by constructor <;> decide)

/-- C8: `should_inject_into_process` returns false when no option of the
follow-children family is set; with `follow_children` set (and the other two
family members unset) it returns true exactly when the child is not marked
excluded and injection is not left to the systemwide preinjector (child
registered for injection, preinjector enabled, and not an explicit child). -/
theorem should_inject_follow_children_cases :
    ∀ (si : InjectMask) (enabled : Bool),
      should_inject_into_process ⟨false, false, false⟩ si enabled = false
      ∧ should_inject_into_process ⟨true, false, false⟩ si enabled =
          (!si.inject_excluded &&
           !(si.inject_true && enabled && !si.inject_explicit)) := by
  intro si enabled
  obtain ⟨a, b, c⟩ := si
  revert a b c enabled
  decide

/-- C7: a detach request with the `allow_detach` option unset and not
internally generated leaves the engine in place: `detach_helper` reports the
failure, resets its flags, performs no teardown, and changes nothing else. -/
theorem detach_refused_without_allow_detach (st : DetachState)
    (hinit : st.dynamo_initialized = true) (hex : st.dynamo_exited = false)
    (hdc : st.has_dcontext = true) (hflag : st.dynamo_detaching_flag = false)
    (hdoing : st.doing_detach = false) (hprot : st.datasec_protected = true)
    (hint : st.internal_detach = false) (hallow : st.allow_detach = false) :
    detach_helper st = { st with error_reported := true } ∧
    (detach_helper st).detached = st.detached := by
  have h : detach_helper st = { st with error_reported := true } := by
    simp [detach_helper, hinit, hex, hdc, hflag, hint, hallow]
    cases st
    simp_all
  exact ⟨h, by rw [h]⟩

/-- Witness for C7 at a concrete running-engine state. -/
theorem detach_refused_without_allow_detach_witness :
    detach_helper ⟨true, false, true, false, false, false, false, true, false, false⟩ =
      ⟨true, false, true, false, false, false, false, true, true, false⟩ ∧
    (detach_helper
      ⟨true, false, true, false, false, false, false, true, false, false⟩).detached =
      false :=
  detach_refused_without_allow_detach
    ⟨true, false, true, false, false, false, false, true, false, false⟩
    rfl rfl rfl rfl rfl rfl rfl rfl

/-! # Theorems for the wrap/replace claims -/

theorem countP_reverse (p : WrapEntry → Bool) (l : List WrapEntry) :
    l.reverse.countP p = l.countP p := by
  rw [List.countP_eq_length_filter, List.filter_reverse, List.length_reverse,
      ← List.countP_eq_length_filter]

theorem preEvents_all_pre (f : Nat) (regs : List WrapEntry)
    (h : ∀ e ∈ regs, e.hasPre = true) :
    preEvents f regs = regs.map (fun e => WrapEvent.pre f e.wid) := by
  induction regs with
  | nil => rfl
  | cons e rest ih =>
    have he := h e (by simp)
    rw [preEvents, he, ih (fun x hx => h x (by simp [hx]))]
    simp

theorem postEventsFwd_all_post (f : Nat) (ab : Bool) (regs : List WrapEntry)
    (h : ∀ e ∈ regs, e.hasPost = true) :
    postEventsFwd f ab regs = regs.map (fun e => WrapEvent.post f e.wid ab) := by
  induction regs with
  | nil => rfl
  | cons e rest ih =>
    have he := h e (by simp)
    rw [postEventsFwd, he, ih (fun x hx => h x (by simp [hx]))]
    simp

/-- C2: with several wrap registrations on one function address, one
invocation runs the pre callbacks in registration order and the post
callbacks in the reverse of registration order. -/
theorem drwrap_wrap_order (wraps : Nat → List WrapEntry) (f sp0 : Nat)
    (h : ∀ e ∈ wraps f, e.hasPre = true ∧ e.hasPost = true) :
    (wrapRun wraps sp0 [.call f, .ret]).trace =
      (wraps f).map (fun e => WrapEvent.pre f e.wid) ++
      ((wraps f).reverse).map (fun e => WrapEvent.post f e.wid false) := by
  show (wrapStep wraps (wrapStep wraps ⟨[], sp0, []⟩ (.call f)) .ret).trace = _
  simp only [wrapStep, List.nil_append]
  rw [postEvents, preEvents_all_pre f (wraps f) (fun e he => (h e he).1),
      postEventsFwd_all_post f false ((wraps f).reverse)
        (fun e he => (h e (List.mem_reverse.mp he)).2)]

/-- Witness for C2: three wraps registered on function 5 in order 1, 2, 3
give pre callbacks 1, 2, 3 and post callbacks 3, 2, 1. -/
theorem drwrap_wrap_order_witness :
    (wrapRun
      (fun g => if g = 5 then [⟨1, true, true⟩, ⟨2, true, true⟩, ⟨3, true, true⟩] else [])
      50 [.call 5, .ret]).trace =
      [.pre 5 1, .pre 5 2, .pre 5 3,
       .post 5 3 false, .post 5 2 false, .post 5 1 false] := by
  rw [drwrap_wrap_order
    (fun g => if g = 5 then [⟨1, true, true⟩, ⟨2, true, true⟩, ⟨3, true, true⟩] else [])
    5 50 (by decide)]
  decide

theorem runPres_skip (f : Nat) (skips : Nat → Option Nat) (regs : List WrapEntry)
    (e : WrapEntry) (v : Nat)
    (hfind : regs.find? (fun x => x.hasPre && (skips x.wid).isSome) = some e)
    (hv : skips e.wid = some v) :
    (runPres f skips regs).2 = some v ∧
    ((runPres f skips regs).1.all (fun ev => !ev.isPost)) = true := by
  induction regs with
  | nil => simp at hfind
  | cons a rest ih =>
    by_cases hp : (a.hasPre && (skips a.wid).isSome) = true
    · rw [@List.find?_cons_of_pos _ (fun x => x.hasPre && (skips x.wid).isSome)
          a rest hp] at hfind
      obtain rfl : a = e := by injection hfind
      obtain ⟨hpre, hsome⟩ := Bool.and_eq_true_iff.mp hp
      simp [runPres, hpre, hv, WrapEvent.isPost]
    · rw [@List.find?_cons_of_neg _ (fun x => x.hasPre && (skips x.wid).isSome)
          a rest hp] at hfind
      obtain ⟨ih1, ih2⟩ := ih hfind
      by_cases hpre : a.hasPre = true
      · have hnone : skips a.wid = none := by
          cases hsk : skips a.wid with
          | none => rfl
          | some w => exact absurd (by simp [hpre, hsk]) hp
        simp only [runPres, hpre, if_true, hnone]
        exact ⟨ih1, by rw [List.all_cons, ih2]; rfl⟩
      · simp only [runPres, hpre, if_false, Bool.false_eq_true]
        exact ⟨ih1, ih2⟩

/-- C3: if a pre callback of a wrapped invocation calls `drwrap_skip_call`
with return value `v` (the first skipping pre callback in pre-call order),
the wrapped function's body is not executed, the application caller observes
`v`, and no post callback runs for that invocation. -/
theorem drwrap_skip_call_spec (f : Nat) (regs : List WrapEntry)
    (skips : Nat → Option Nat) (body : Nat) (e : WrapEntry) (v : Nat)
    (hfind : regs.find? (fun x => x.hasPre && (skips x.wid).isSome) = some e)
    (hv : skips e.wid = some v) :
    (invokeWrapped f regs skips body).retval = v ∧
    (invokeWrapped f regs skips body).bodyRan = false ∧
    ((invokeWrapped f regs skips body).events.all (fun ev => !ev.isPost)) = true := by
  obtain ⟨h2, h1⟩ := runPres_skip f skips regs e v hfind hv
  have hinv : invokeWrapped f regs skips body = ⟨(runPres f skips regs).1, v, false⟩ := by
    simp only [invokeWrapped, h2]
  rw [hinv]
  exact ⟨rfl, rfl, h1⟩

/-- Witness for C3: one wrap on function 3 whose pre callback skips with
return value 7; the body (which would return 55) does not run. -/
theorem drwrap_skip_call_spec_witness :
    (invokeWrapped 3 [⟨1, true, true⟩] (fun w => if w = 1 then some 7 else none) 55).retval = 7 ∧
    (invokeWrapped 3 [⟨1, true, true⟩] (fun w => if w = 1 then some 7 else none) 55).bodyRan = false ∧
    ((invokeWrapped 3 [⟨1, true, true⟩]
        (fun w => if w = 1 then some 7 else none) 55).events.all (fun ev => !ev.isPost)) = true :=
  drwrap_skip_call_spec 3 [⟨1, true, true⟩] (fun w => if w = 1 then some 7 else none)
    55 ⟨1, true, true⟩ 7 (by decide) (by decide)

/-- C5: installing a replacement with override and then removing it (NULL
with override) both succeed and restore native execution of the target:
afterwards the table holds no replacement for it, exactly as if none had
been installed. -/
theorem drwrap_replace_roundtrip (tbl : Nat → Option Nat) (f g : Nat) :
    (drwrap_replace tbl f (some g) true).1 = true ∧
    (drwrap_replace (drwrap_replace tbl f (some g) true).2 f none true).1 = true ∧
    replaceTarget (drwrap_replace (drwrap_replace tbl f (some g) true).2 f none true).2 f = f ∧
    (drwrap_replace (drwrap_replace tbl f (some g) true).2 f none true).2 =
      fun a => if a = f then none else tbl a := by
  refine ⟨by simp [drwrap_replace], by simp [drwrap_replace],
          by simp [drwrap_replace, replaceTarget], funext fun a => ?_⟩
  by_cases h : a = f <;> simp [drwrap_replace, h]

/-- C6: a control transfer to an address with unreadable bytes surfaces to
the application exactly the fault the CPU would raise natively: the engine's
decode-failure path delivers an access violation at that address to the
application's registered handler with the original context, agreeing with
the native reference semantics on every input. -/
theorem decode_fault_transparency :
    (∀ (mem : Nat → Option Nat) (handler target ctx : Nat),
        engineTransfer mem handler target ctx = nativeTransfer mem handler target ctx) ∧
    (∀ (mem : Nat → Option Nat) (handler target ctx : Nat),
        mem target = none →
        engineTransfer mem handler target ctx =
          TransferOutcome.handlerInvoked handler ⟨true, target, ctx⟩) := by
  constructor
  · intro mem handler target ctx
    unfold engineTransfer nativeTransfer decodeAt interposerPropagateToApp
    cases mem target <;> rfl
  · intro mem handler target ctx h
    unfold engineTransfer decodeAt interposerPropagateToApp
    rw [h]

/-- Witness for C6 at one of the bad return targets of the retnonexisting
test (0xbadbad00), with that address unreadable. -/
theorem decode_fault_transparency_witness :
    engineTransfer (fun a => if a = 0xbadbad00 then none else some 0) 77 0xbadbad00 5 =
      TransferOutcome.handlerInvoked 77 ⟨true, 0xbadbad00, 5⟩ :=
  decode_fault_transparency.2 (fun a => if a = 0xbadbad00 then none else some 0)
    77 0xbadbad00 5 (by simp)

theorem unwindFrames_eq (t : Nat) (stk : List WrapFrame) :
    unwindFrames t stk =
      (stk.dropWhile (fun fr => decide (fr.watermark < t)),
       (stk.takeWhile (fun fr => decide (fr.watermark < t))).flatMap
         (fun fr => postEvents fr.func fr.entries true)) := by
  induction stk with
  | nil => rfl
  | cons fr rest ih =>
    by_cases h : fr.watermark < t
    · simp only [unwindFrames, if_pos h, ih, List.flatMap_cons]
      simp [h]
    · simp only [unwindFrames, if_neg h]
      simp [h]

theorem postEventsFwd_abnormal (f : Nat) (regs : List WrapEntry) :
    (postEventsFwd f true regs).all WrapEvent.isAbnormalPost = true := by
  induction regs with
  | nil => rfl
  | cons e rest ih =>
    by_cases h : e.hasPost = true <;>
      simp [postEventsFwd, h, List.all_append, ih, WrapEvent.isAbnormalPost]

theorem postEvents_abnormal (f : Nat) (regs : List WrapEntry) :
    (postEvents f regs true).all WrapEvent.isAbnormalPost = true :=
  postEventsFwd_abnormal f regs.reverse

theorem flatMap_postEvents_abnormal (l : List WrapFrame) :
    (l.flatMap (fun fr => postEvents fr.func fr.entries true)).all
      WrapEvent.isAbnormalPost = true := by
  induction l with
  | nil => rfl
  | cons fr rest ih =>
    simp [List.flatMap_cons, List.all_append, postEvents_abnormal, ih]

/-- C4: a nonlocal exit restoring the stack pointer to `t` invokes the post
callbacks of exactly the bypassed frames (watermark below `t`), innermost
first — the reverse of the order their pre callbacks ran — all carrying the
abnormal indication, and pops exactly those frames; in scenario S4 every
frame is bypassed, the posts fire in reverse order of the pres, and the
wrap-stack is empty afterwards. -/
theorem drwrap_unwind_abnormal_posts :
    (∀ (wraps : Nat → List WrapEntry) (s : WrapState) (t : Nat),
       (wrapStep wraps s (.longjmpTo t)).stack =
         s.stack.dropWhile (fun fr => decide (fr.watermark < t)) ∧
       (wrapStep wraps s (.longjmpTo t)).trace =
         s.trace ++ (s.stack.takeWhile (fun fr => decide (fr.watermark < t))).flatMap
           (fun fr => postEvents fr.func fr.entries true) ∧
       ((s.stack.takeWhile (fun fr => decide (fr.watermark < t))).flatMap
           (fun fr => postEvents fr.func fr.entries true)).all
         WrapEvent.isAbnormalPost = true) ∧
    (wrapRun unwindWraps 100 [.call 0, .call 1, .call 2, .call 3, .longjmpTo 100]).stack = [] ∧
    (wrapRun unwindWraps 100 [.call 0, .call 1, .call 2, .call 3, .longjmpTo 100]).trace =
      [.pre 0 10, .pre 1 11, .pre 2 12, .pre 3 13,
       .post 3 13 true, .post 2 12 true, .post 1 11 true, .post 0 10 true] := by
  refine ⟨fun wraps s t => ?_, by decide, by decide⟩
  have h := unwindFrames_eq t s.stack
  exact ⟨by simp [wrapStep, h], by simp [wrapStep, h], flatMap_postEvents_abnormal _⟩

theorem countP_preEvents_isPre (f wid g : Nat) (regs : List WrapEntry) :
    (preEvents g regs).countP (isPreOf f wid) =
      if g = f then regs.countP (fun e => e.hasPre && decide (e.wid = wid)) else 0 := by
  induction regs with
  | nil => simp [preEvents]
  | cons e rest ih =>
    rw [preEvents, List.countP_append, ih, List.countP_cons]
    by_cases hp : e.hasPre = true
    · by_cases hg : g = f
      · subst hg
        by_cases hw : e.wid = wid <;>
          simp [hp, hw, isPreOf, List.countP_cons, Nat.add_comm]
      · simp [hp, hg, isPreOf, List.countP_cons]
    · simp [hp]

theorem countP_preEvents_isPost (f wid g : Nat) (regs : List WrapEntry) :
    (preEvents g regs).countP (isPostOf f wid) = 0 := by
  induction regs with
  | nil => rfl
  | cons e rest ih =>
    rw [preEvents, List.countP_append, ih]
    by_cases hp : e.hasPre = true <;> simp [hp, isPostOf, List.countP_cons]

theorem countP_postEventsFwd_isPost (f wid g : Nat) (ab : Bool) (regs : List WrapEntry) :
    (postEventsFwd g ab regs).countP (isPostOf f wid) =
      if g = f then regs.countP (fun e => e.hasPost && decide (e.wid = wid)) else 0 := by
  induction regs with
  | nil => simp [postEventsFwd]
  | cons e rest ih =>
    rw [postEventsFwd, List.countP_append, ih, List.countP_cons]
    by_cases hp : e.hasPost = true
    · by_cases hg : g = f
      · subst hg
        by_cases hw : e.wid = wid <;>
          simp [hp, hw, isPostOf, List.countP_cons, Nat.add_comm]
      · simp [hp, hg, isPostOf, List.countP_cons]
    · simp [hp]

theorem countP_postEventsFwd_isPre (f wid g : Nat) (ab : Bool) (regs : List WrapEntry) :
    (postEventsFwd g ab regs).countP (isPreOf f wid) = 0 := by
  induction regs with
  | nil => rfl
  | cons e rest ih =>
    rw [postEventsFwd, List.countP_append, ih]
    by_cases hp : e.hasPost = true <;> simp [hp, isPreOf, List.countP_cons]

theorem countP_postEvents_isPost (f wid g : Nat) (ab : Bool) (regs : List WrapEntry) :
    (postEvents g regs ab).countP (isPostOf f wid) =
      if g = f then regs.countP (fun e => e.hasPost && decide (e.wid = wid)) else 0 := by
  rw [postEvents, countP_postEventsFwd_isPost, countP_reverse]

theorem countP_postEvents_isPre (f wid g : Nat) (ab : Bool) (regs : List WrapEntry) :
    (postEvents g regs ab).countP (isPreOf f wid) = 0 := by
  rw [postEvents, countP_postEventsFwd_isPre]

theorem stackPending_cons (f wid : Nat) (fr : WrapFrame) (stk : List WrapFrame) :
    stackPending f wid (fr :: stk) = framePending f wid fr + stackPending f wid stk := by
  simp [stackPending]

theorem unwind_counts (f wid t : Nat) (stk : List WrapFrame) :
    (unwindFrames t stk).2.countP (isPostOf f wid) +
      stackPending f wid (unwindFrames t stk).1 = stackPending f wid stk ∧
    (unwindFrames t stk).2.countP (isPreOf f wid) = 0 := by
  induction stk with
  | nil => simp [unwindFrames, stackPending]
  | cons fr rest ih =>
    by_cases h : fr.watermark < t
    · simp only [unwindFrames, if_pos h]
      constructor
      · rw [List.countP_append, countP_postEvents_isPost, stackPending_cons]
        have := ih.1
        simp only [framePending]
        by_cases hg : fr.func = f <;> simp [hg] <;> omega
      · rw [List.countP_append, countP_postEvents_isPre, ih.2]
    · simp [unwindFrames, if_neg h]

theorem pairing_step (wraps : Nat → List WrapEntry) (f wid : Nat)
    (H : ∀ e ∈ wraps f, e.wid = wid → e.hasPre = true ∧ e.hasPost = true)
    (s : WrapState) (a : WrapAct)
    (hs : preCount f wid s.trace = postCount f wid s.trace + stackPending f wid s.stack) :
    preCount f wid (wrapStep wraps s a).trace =
      postCount f wid (wrapStep wraps s a).trace +
      stackPending f wid (wrapStep wraps s a).stack := by
  obtain ⟨stk, sp, tr⟩ := s
  simp only [preCount, postCount] at hs ⊢
  cases a with
  | call g =>
    simp only [wrapStep, List.countP_append, countP_preEvents_isPre,
               countP_preEvents_isPost, stackPending_cons]
    by_cases hg : g = f
    · subst hg
      have hcount : (wraps g).countP (fun e => e.hasPre && decide (e.wid = wid)) =
          (wraps g).countP (fun e => e.hasPost && decide (e.wid = wid)) := by
        rw [List.countP_eq_length_filter, List.countP_eq_length_filter,
            List.filter_congr (fun e he => ?_)]
        by_cases hw : e.wid = wid
        · obtain ⟨h1, h2⟩ := H e he hw
          simp [h1, h2]
        · simp [hw]
      simp only [framePending, if_pos rfl, hcount]
      omega
    · have hgf : ¬(g = f) := hg
      simp only [framePending, if_neg hgf, if_neg hgf]
      omega
  | ret =>
    cases stk with
    | nil => simpa using hs
    | cons fr rest =>
      simp only [wrapStep, List.countP_append, countP_postEvents_isPre,
                 countP_postEvents_isPost] at hs ⊢
      rw [stackPending_cons] at hs
      simp only [framePending] at hs ⊢
      by_cases hg : fr.func = f <;> simp [hg] at hs ⊢ <;> omega
  | longjmpTo t =>
    simp only [wrapStep, List.countP_append]
    obtain ⟨h1, h2⟩ := unwind_counts f wid t stk
    rw [h2]
    omega

theorem pairing_run (wraps : Nat → List WrapEntry) (f wid : Nat)
    (H : ∀ e ∈ wraps f, e.wid = wid → e.hasPre = true ∧ e.hasPost = true) :
    ∀ (acts : List WrapAct) (s : WrapState),
      preCount f wid s.trace = postCount f wid s.trace + stackPending f wid s.stack →
      preCount f wid (acts.foldl (wrapStep wraps) s).trace =
        postCount f wid (acts.foldl (wrapStep wraps) s).trace +
        stackPending f wid (acts.foldl (wrapStep wraps) s).stack := by
  intro acts
  induction acts with
  | nil => intro s hs; exact hs
  | cons a rest ih =>
    intro s hs
    exact ih _ (pairing_step wraps f wid H s a hs)

/-- C1: in every complete run (empty wrap-stack at the end), each invocation
of a pre callback of a wrap that registered both callbacks is matched by
exactly one post callback invocation, normal or abnormal (equal event
counts); and in the unwind test, the per-thread counter incremented by every
pre and decremented by every post is back to 0 at the moment longdone's post
callback runs. -/
theorem drwrap_pre_post_pairing :
    (∀ (wraps : Nat → List WrapEntry) (sp0 : Nat) (acts : List WrapAct) (f wid : Nat),
       (∀ e ∈ wraps f, e.wid = wid → e.hasPre = true ∧ e.hasPost = true) →
       (wrapRun wraps sp0 acts).stack = [] →
       preCount f wid (wrapRun wraps sp0 acts).trace =
         postCount f wid (wrapRun wraps sp0 acts).trace) ∧
    (wrapRun unwindWraps 100 unwindActs).trace.getLast? =
      some (.post 4 14 false) ∧
    unwindCounter 4 (wrapRun unwindWraps 100 unwindActs).trace.dropLast = 0 := by
  refine ⟨?_, by decide, by decide⟩
  intro wraps sp0 acts f wid H hempty
  have h := pairing_run wraps f wid H acts ⟨[], sp0, []⟩
    (by simp [preCount, postCount, stackPending])
  have hz : stackPending f wid (wrapRun wraps sp0 acts).stack = 0 := by
    rw [hempty]; rfl
  rw [wrapRun] at hz ⊢
  omega

/-- Witness for C1: a single both-callback wrap on function 0, one call and
return; pre and post counts agree. -/
theorem drwrap_pre_post_pairing_witness :
    preCount 0 5 (wrapRun (fun g => if g = 0 then [⟨5, true, true⟩] else [])
        20 [.call 0, .ret]).trace =
      postCount 0 5 (wrapRun (fun g => if g = 0 then [⟨5, true, true⟩] else [])
        20 [.call 0, .ret]).trace :=
  drwrap_pre_post_pairing.1 (fun g => if g = 0 then [⟨5, true, true⟩] else [])
    20 [.call 0, .ret] 0 5 (by decide) (by decide)

end DynamoRIO
